import Mathlib

/-!
Shallow embedding of pywoudc (src/pywoudc/__init__.py), covering the
pagination-and-aggregation loop of WoudcClient.get_data and the
date2string helper, together with theorems checking the specification's
claims about them.
-/

set_option maxHeartbeats 1000000

/-- A GeoJSON feature as the client sees it: get_data only ever inspects
the properties mapping (the expression e['properties'][sort_property]).
Property values are modelled as integers, the only thing the code needs
from them being an order for sorting. -/
structure Feature where
  properties : List (String × Int)
deriving DecidableEq, Repr

/-- A parsed GeoJSON feature collection: the features list plus the
count metadata fields a WFS server may include in the payload.  get_data
reads and extends only the features list. -/
structure FeatureCollection where
  features : List Feature
  numberMatched : Option Int
  numberReturned : Option Int
deriving DecidableEq, Repr

/-- One page response as get_data observes it after
self.server.getfeature(...).read(): raw text that is entirely whitespace
(payload.isspace() is true), text that json.loads rejects with
ValueError, a successfully parsed feature collection, or the transport
call itself raising (network failure inside getfeature). -/
inductive Payload where
  | whitespace
  | invalid
  | page (fc : FeatureCollection)
  | transportFail
deriving DecidableEq, Repr

/-- How the while-True loop of get_data ends. finished is reaching a
break statement carrying the current feature_collection accumulator
(still None when the first payload was whitespace); parseFailReturn is
the `return None` taken when json.loads raises; transportRaise is a
transport exception propagating out of the loop; fuelOut marks
insufficient fuel in the embedding and corresponds to no Python
behaviour. -/
inductive LoopExit where
  | finished (acc : Option FeatureCollection)
  | parseFailReturn
  | transportRaise
  | fuelOut
deriving DecidableEq, Repr

/-- Outcome of the embedded loop plus the number of page requests it
issued. -/
structure LoopResult where
  outcome : LoopExit
  requests : Nat
deriving DecidableEq, Repr

/-- One accumulation step of get_data: the first parsed page becomes the
accumulator object itself (feature_collection = features); every later
page only extends the features list of that object
(feature_collection['features'].extend(...)), leaving all other fields
of the first page untouched. -/
def mergePage : Option FeatureCollection → FeatureCollection → FeatureCollection
  | none, fc => fc
  | some acc, fc => { acc with features := acc.features ++ fc.features }

/-- The while-True pagination loop of get_data (lines 244-280).  src maps
a startindex to the payload the server returns for the page request at
that offset; maxfeatures is the configured page size.  Each iteration
re-reads the payload at the current startindex, exits on whitespace, on a
parse failure (return None), on a transport exception, or on a page
strictly shorter than maxfeatures, and otherwise advances startindex by
maxfeatures.  fuel bounds the recursion depth of the embedding only. -/
def getDataLoop (src : Nat → Payload) (maxfeatures : Nat) :
    Nat → Nat → Option FeatureCollection → LoopResult
  | 0, _, _ => ⟨LoopExit.fuelOut, 0⟩
  | fuel + 1, startindex, acc =>
    match src startindex with
    | Payload.transportFail => ⟨LoopExit.transportRaise, 1⟩
    | Payload.whitespace => ⟨LoopExit.finished acc, 1⟩
    | Payload.invalid => ⟨LoopExit.parseFailReturn, 1⟩
    | Payload.page fc =>
      if fc.features.length < maxfeatures then
        ⟨LoopExit.finished (some (mergePage acc fc)), 1⟩
      else
        let rest :=
          getDataLoop src maxfeatures fuel (startindex + maxfeatures)
            (some (mergePage acc fc))
        ⟨rest.outcome, rest.requests + 1⟩

/-- The sort key of a feature: e['properties'][sort_property], defaulting
to 0; get_data only evaluates it after checking (implicitly, by raising
KeyError otherwise) that the property is present. -/
def rankOf (p : String) (f : Feature) : Int :=
  ((f.properties.lookup p).getD 0)

/-- The comparison used by feature_collection['features'].sort(key=...,
reverse=sort_descending): Python sorts ascending by the key, reversing
comparisons (but not tie order) when reverse is true. -/
def featureSortLe (p : String) (descending : Bool) (a b : Feature) : Bool :=
  if descending then decide (rankOf p b ≤ rankOf p a)
  else decide (rankOf p a ≤ rankOf p b)

/-- Insert into a sorted list, placing the new element after existing
elements it ties with: together with insertionSortBy this is the unique
stable sort, matching Python's list.sort. -/
def orderedInsertBy (le : Feature → Feature → Bool) (a : Feature) :
    List Feature → List Feature
  | [] => [a]
  | b :: l => if le a b then a :: b :: l else b :: orderedInsertBy le a l

/-- Stable insertion sort modelling Python's stable list.sort. -/
def insertionSortBy (le : Feature → Feature → Bool) : List Feature → List Feature
  | [] => []
  | a :: l => orderedInsertBy le a (insertionSortBy le l)

/-- What a get_data call delivers to its caller: a feature collection, the
Python value None (the `return None` on a parse failure), a TypeError
raised by len(feature_collection['features']) when the accumulator is
still None after the loop, a KeyError raised by the sort key lambda when
a feature lacks the sort property, a propagated transport exception, or
fuel exhaustion of the embedding. -/
inductive GetDataResult where
  | ok (fc : FeatureCollection)
  | pyNone
  | typeError
  | keyError
  | transportRaise
  | fuelOut
deriving DecidableEq, Repr

/-- WoudcClient.get_data restricted to its pagination/aggregation/sort
core (lines 244-291): run the loop from startindex 0 with an empty
accumulator, then take len(feature_collection['features']) (TypeError if
the accumulator is still None), then sort in place when sort_property is
given (KeyError if some feature lacks it), and return the accumulated
collection. -/
def get_data (src : Nat → Payload) (maxfeatures : Nat)
    (sort_property : Option String) (sort_descending : Bool)
    (fuel : Nat) : GetDataResult :=
  match (getDataLoop src maxfeatures fuel 0 none).outcome with
  | LoopExit.fuelOut => GetDataResult.fuelOut
  | LoopExit.transportRaise => GetDataResult.transportRaise
  | LoopExit.parseFailReturn => GetDataResult.pyNone
  | LoopExit.finished none => GetDataResult.typeError
  | LoopExit.finished (some fc) =>
    match sort_property with
    | none => GetDataResult.ok fc
    | some p =>
      if fc.features.all (fun f => (f.properties.lookup p).isSome) then
        GetDataResult.ok
          { fc with
            features := insertionSortBy (featureSortLe p sort_descending) fc.features }
      else GetDataResult.keyError

/-- Zero-padded two-digit rendering used by strftime field formats. -/
def pad2 (n : Nat) : String :=
  if n < 10 then "0" ++ toString n else toString n

/-- Zero-padded four-digit rendering of the strftime year field. -/
def pad4 (n : Nat) : String :=
  if n < 10 then "000" ++ toString n
  else if n < 100 then "00" ++ toString n
  else if n < 1000 then "0" ++ toString n
  else toString n

/-- dateval.strftime of the date part. -/
def strftimeDate (y mo d : Nat) : String :=
  pad4 y ++ "-" ++ pad2 mo ++ "-" ++ pad2 d

/-- dateval.strftime of a full datetime. -/
def strftimeDateTime (y mo d h mi sec : Nat) : String :=
  strftimeDate y mo d ++ " " ++ pad2 h ++ ":" ++ pad2 mi ++ ":" ++ pad2 sec

/-- The runtime type of the dateval argument of date2string: a string, a
datetime.datetime, a datetime.date, or any other Python value (the
function dispatches on isinstance checks in exactly this order;
datetimes are modelled at the whole-second granularity the canonical
format carries). -/
inductive DateVal where
  | str (s : String)
  | datetime (y mo d h mi sec : Nat)
  | date (y mo d : Nat)
  | other
deriving DecidableEq, Repr

/-- What a date2string call does: raise ValueError, or return the value
of the date_as_string variable, which is initialised to None and may
still be None when no isinstance branch assigned it. -/
inductive D2SResult where
  | valueError
  | ret (s : Option String)
deriving DecidableEq, Repr

/-- The isinstance dispatch of date2string once default_time is fixed: a
10-character string gets default_time appended, a longer string is
returned unchanged, a datetime is formatted with its own time-of-day, a
date is formatted and gets default_time appended, and anything else
leaves date_as_string as None. -/
def date2stringBody (dateval : DateVal) (default_time : String) : Option String :=
  match dateval with
  | DateVal.str s =>
    if s.length = 10 then some (s ++ " " ++ default_time)
    else if s.length > 10 then some s
    else none
  | DateVal.datetime y mo d h mi sec => some (strftimeDateTime y mo d h mi sec)
  | DateVal.date y mo d => some (strftimeDate y mo d ++ " " ++ default_time)
  | DateVal.other => none

/-- date2string (lines 308-330): pick default_time from the direction
argument, raising ValueError for any direction other than begin or end,
then dispatch on the runtime type of dateval. -/
def date2string (dateval : DateVal) (direction : String) : D2SResult :=
  if direction = "begin" then D2SResult.ret (date2stringBody dateval "00:00:00")
  else if direction = "end" then D2SResult.ret (date2stringBody dateval "23:59:59")
  else D2SResult.valueError

/-- Feature-count of the accumulator, 0 while it is still None. -/
def accLen : Option FeatureCollection → Nat
  | none => 0
  | some a => a.features.length

def fcOne : FeatureCollection := ⟨[⟨[]⟩], none, none⟩

def fcNil : FeatureCollection := ⟨[], none, none⟩

def c1src : Nat → Payload := fun n =>
  if n < 3 then Payload.page fcOne else Payload.page fcNil

def c2src : Nat → Payload := fun n =>
  if n < 2 then Payload.page ⟨[⟨[]⟩], some 2, some 1⟩
  else Payload.page ⟨[], some 2, some 0⟩

def featA : Feature := ⟨[("id", 1)]⟩

def featB : Feature := ⟨[("id", 2)]⟩

def c3src : Nat → Payload := fun n =>
  if n = 0 then Payload.page ⟨[featA], some 1, some 1⟩
  else if n = 1 then Payload.page ⟨[featB], some 1, some 1⟩
  else Payload.page ⟨[], some 1, some 1⟩

def c4src : Nat → Payload := fun _ => Payload.invalid

def c4srcT : Nat → Payload := fun _ => Payload.transportFail

def rank3 : Feature := ⟨[("rank", 3)]⟩

def rank1 : Feature := ⟨[("rank", 1)]⟩

def rank2 : Feature := ⟨[("rank", 2)]⟩

def c7src : Nat → Payload := fun _ =>
  Payload.page ⟨[rank3, rank1, rank2], some 3, some 3⟩

def tie1 : Feature := ⟨[("rank", 1), ("id", 10)]⟩

def tie2 : Feature := ⟨[("rank", 1), ("id", 20)]⟩

def tie3 : Feature := ⟨[("rank", 0), ("id", 30)]⟩

def c7tiesrc : Nat → Payload := fun _ =>
  Payload.page ⟨[tie1, tie2, tie3], none, none⟩

def noRank : Feature := ⟨[("id", 1)]⟩

def c7badsrc : Nat → Payload := fun _ => Payload.page ⟨[noRank], none, none⟩

def c9src : Nat → Payload := fun _ => Payload.whitespace

def c10src : Nat → Payload := fun n =>
  if n = 0 then Payload.page ⟨[⟨[]⟩], none, none⟩ else Payload.invalid

theorem accLen_merge (acc : Option FeatureCollection) (fc : FeatureCollection) :
    (mergePage acc fc).features.length = accLen acc + fc.features.length := by
  cases acc <;> simp [mergePage, accLen]

/-- Invariant of the loop: once the accumulator holds a collection, every
collection the loop can finish with has that collection's count metadata,
because later pages only extend the features list. -/
theorem getDataLoop_metadata (src : Nat → Payload) (mf : Nat) :
    ∀ (fuel start : Nat) (a fc : FeatureCollection),
      (getDataLoop src mf fuel start (some a)).outcome = LoopExit.finished (some fc) →
      fc.numberMatched = a.numberMatched ∧ fc.numberReturned = a.numberReturned := by
  intro fuel
  induction fuel with
  | zero =>
    intro start a fc h
    simp [getDataLoop] at h
  | succ m ih =>
    intro start a fc h
    cases hp : src start with
    | whitespace =>
      simp only [getDataLoop, hp] at h
      simp at h
      subst h; exact ⟨rfl, rfl⟩
    | invalid => simp [getDataLoop, hp] at h
    | transportFail => simp [getDataLoop, hp] at h
    | page p =>
      simp only [getDataLoop, hp] at h
      by_cases hs : p.features.length < mf
      · rw [if_pos hs] at h
        simp [mergePage] at h
        subst h
        exact ⟨rfl, rfl⟩
      · rw [if_neg hs] at h
        simp only at h
        have := ih (start + mf) (mergePage (some a) p) fc h
        simpa [mergePage] using this

/-- Running the loop over q consecutive full pages (size exactly P, at
offsets j*P, (j+1)*P, ...) followed by one short page issues exactly q+1
requests and finishes with the accumulator extended by q*P features plus
the short page's features. -/
theorem getDataLoop_run (src : Nat → Payload) (P : Nat) (pg : Nat → FeatureCollection) :
    ∀ (q j fuel : Nat) (acc : Option FeatureCollection) (last : FeatureCollection),
      (∀ i, i < q → src ((j + i) * P) = Payload.page (pg (j + i))) →
      (∀ i, i < q → (pg (j + i)).features.length = P) →
      src ((j + q) * P) = Payload.page last →
      last.features.length < P →
      q + 1 ≤ fuel →
      (getDataLoop src P fuel (j * P) acc).requests = q + 1 ∧
      ∃ fc, (getDataLoop src P fuel (j * P) acc).outcome = LoopExit.finished (some fc) ∧
        fc.features.length = accLen acc + q * P + last.features.length := by
  intro q
  induction q with
  | zero =>
    intro j fuel acc last hsrc hlen hlast hshort hfuel
    obtain ⟨m, rfl⟩ : ∃ m, fuel = m + 1 := ⟨fuel - 1, by omega⟩
    have hlast2 : src (j * P) = Payload.page last := by simpa using hlast
    simp only [getDataLoop, hlast2, if_pos hshort]
    refine ⟨by simp, mergePage acc last, by simp, ?_⟩
    simp [accLen_merge]
  | succ q ih =>
    intro j fuel acc last hsrc hlen hlast hshort hfuel
    obtain ⟨m, rfl⟩ : ∃ m, fuel = m + 1 := ⟨fuel - 1, by omega⟩
    have h0 : src (j * P) = Payload.page (pg j) := by
      have := hsrc 0 (by omega); simpa using this
    have hl0 : (pg j).features.length = P := by
      have := hlen 0 (by omega); simpa using this
    have hns : ¬ (pg j).features.length < P := by omega
    have harith : j * P + P = (j + 1) * P := by ring
    have ih2 := ih (j + 1) m (some (mergePage acc (pg j))) last ?_ ?_ ?_ hshort (by omega)
    · simp only [getDataLoop, h0, if_neg hns]
      rw [harith]
      refine ⟨?_, ?_⟩
      · simp only [ih2.1]
      · obtain ⟨fc, hout, hlenfc⟩ := ih2.2
        refine ⟨fc, ?_, ?_⟩
        · simpa using hout
        · rw [hlenfc, accLen, accLen_merge]
          rw [hl0]
          ring
    · intro i hi
      have := hsrc (i + 1) (by omega)
      have e : j + (i + 1) = j + 1 + i := by omega
      rw [e] at this
      exact this
    · intro i hi
      have := hlen (i + 1) (by omega)
      have e : j + (i + 1) = j + 1 + i := by omega
      rw [e] at this
      exact this
    · have e : j + (q + 1) = j + 1 + q := by omega
      rw [e] at hlast
      exact hlast

/-- Termination of the loop: if the page request at offset (j+n)*mf would
not deliver a full page (any payload other than a page with at least mf
features), the loop started at offset j*mf halts within n+1 iterations,
because every iteration that does not exit advances the offset by mf. -/
theorem getDataLoop_halts (src : Nat → Payload) (mf : Nat) :
    ∀ (n j fuel : Nat) (acc : Option FeatureCollection),
      (∀ fc, src ((j + n) * mf) = Payload.page fc → fc.features.length < mf) →
      n + 1 ≤ fuel →
      (getDataLoop src mf fuel (j * mf) acc).outcome ≠ LoopExit.fuelOut := by
  intro n
  induction n with
  | zero =>
    intro j fuel acc hstop hfuel
    obtain ⟨m, rfl⟩ : ∃ m, fuel = m + 1 := ⟨fuel - 1, by omega⟩
    cases hp : src (j * mf) with
    | whitespace => simp [getDataLoop, hp]
    | invalid => simp [getDataLoop, hp]
    | transportFail => simp [getDataLoop, hp]
    | page fc =>
      have hs : fc.features.length < mf := hstop fc (by simpa using hp)
      simp [getDataLoop, hp, hs]
  | succ n ih =>
    intro j fuel acc hstop hfuel
    obtain ⟨m, rfl⟩ : ∃ m, fuel = m + 1 := ⟨fuel - 1, by omega⟩
    cases hp : src (j * mf) with
    | whitespace => simp [getDataLoop, hp]
    | invalid => simp [getDataLoop, hp]
    | transportFail => simp [getDataLoop, hp]
    | page fc =>
      by_cases hs : fc.features.length < mf
      · simp [getDataLoop, hp, hs]
      · simp only [getDataLoop, hp, if_neg hs]
        have harith : j * mf + mf = (j + 1) * mf := by ring
        rw [harith]
        refine ih (j + 1) m (some (mergePage acc fc)) ?_ (by omega)
        intro fc2 h2
        refine hstop fc2 ?_
        have e : j + (n + 1) = j + 1 + n := by omega
        rw [e]
        exact h2

-- concrete mock sources

/-- C1: with a mock source whose pages at offsets 0, P, 2P, 3P have sizes
P, P, P, k with k < P, get_data issues exactly 4 page requests and
returns a collection of 3*P + k features: the loop stops at the first
page strictly shorter than the configured page size. -/
theorem c1_short_page_stops (src : Nat → Payload) (P k : Nat)
    (f0 f1 f2 f3 : FeatureCollection)
    (hP : 0 < P) (hk : k < P)
    (h0 : src 0 = Payload.page f0) (h1 : src P = Payload.page f1)
    (h2 : src (2 * P) = Payload.page f2) (h3 : src (3 * P) = Payload.page f3)
    (l0 : f0.features.length = P) (l1 : f1.features.length = P)
    (l2 : f2.features.length = P) (l3 : f3.features.length = k)
    (fuel : Nat) (hfuel : 4 ≤ fuel) :
    (getDataLoop src P fuel 0 none).requests = 4 ∧
    ∃ fc, get_data src P none false fuel = GetDataResult.ok fc ∧
      fc.features.length = 3 * P + k := by
  have hrun := getDataLoop_run src P
    (fun i => if i = 0 then f0 else if i = 1 then f1 else f2)
    3 0 fuel none f3
    (by
      intro i hi
      interval_cases i
      · simpa using h0
      · simpa using h1
      · simpa using h2)
    (by
      intro i hi
      interval_cases i
      · simpa using l0
      · simpa using l1
      · simpa using l2)
    (by simpa using h3)
    (by omega)
    (by omega)
  simp only [Nat.zero_mul] at hrun
  refine ⟨by simpa using hrun.1, ?_⟩
  obtain ⟨fc, hout, hlenfc⟩ := hrun.2
  refine ⟨fc, ?_, ?_⟩
  · simp [get_data, hout]
  · rw [hlenfc, l3]
    simp [accLen]

theorem c1_witness :
    (getDataLoop c1src 1 6 0 none).requests = 4 ∧
    ∃ fc, get_data c1src 1 none false 6 = GetDataResult.ok fc ∧
      fc.features.length = 3 * 1 + 0 :=
  c1_short_page_stops c1src 1 0 fcOne fcOne fcOne fcNil (by decide) (by decide)
    rfl rfl rfl rfl rfl rfl rfl rfl 6 (by decide)

/-- C2 (counterexample): a mock source that reports numberMatched = 2 in
every page and serves pages of fixed size P = 1 (so N / P = 2 full
pages, then an empty one): the loop issues 3 requests, not 2. -/
theorem c2_counterexample :
    (getDataLoop c2src 1 10 0 none).requests = 3 ∧
    (getDataLoop c2src 1 10 0 none).requests ≠ 2 := by
  constructor <;> decide

/-- C2 (amended): the loop never consults numberMatched: with pages of
fixed size P exactly dividing the reported total N, it stops only after
N / P + 1 requests, the last request fetching the empty trailing page
whose shortness ends the loop. -/
theorem c2_extra_trailing_request (src : Nat → Payload)
    (pg : Nat → FeatureCollection) (N P : Nat) (hP : 0 < P) (hdvd : P ∣ N)
    (hfull : ∀ i, i < N / P → src (i * P) = Payload.page (pg i))
    (hlen : ∀ i, i < N / P → (pg i).features.length = P)
    (e : FeatureCollection) (hempty : src ((N / P) * P) = Payload.page e)
    (helen : e.features.length = 0)
    (fuel : Nat) (hfuel : N / P + 1 ≤ fuel) :
    (getDataLoop src P fuel 0 none).requests = N / P + 1 := by
  have hrun := getDataLoop_run src P pg (N / P) 0 fuel none e
    (by intro i hi; simpa using hfull i hi)
    (by intro i hi; simpa using hlen i hi)
    (by simpa using hempty)
    (by omega) hfuel
  simpa using hrun.1

theorem c2_witness :
    (getDataLoop c2src 1 10 0 none).requests = 2 / 1 + 1 :=
  c2_extra_trailing_request c2src (fun _ => ⟨[⟨[]⟩], some 2, some 1⟩) 2 1
    (by decide) ⟨2, rfl⟩
    (by intro i hi; interval_cases i <;> rfl)
    (by intro i hi; interval_cases i <;> rfl)
    ⟨[], some 2, some 0⟩ rfl rfl 10 (by decide)

/-- C3 (counterexample): two full pages (size 1) then an empty page, the
first page carrying numberReturned = 1: get_data returns a collection
with 2 features whose numberReturned is still 1, violating
numberReturned == length(features). -/
theorem c3_counterexample :
    get_data c3src 1 none false 10 =
      GetDataResult.ok ⟨[featA, featB], some 1, some 1⟩ ∧
    (FeatureCollection.mk [featA, featB] (some 1) (some 1)).numberReturned ≠
      some ((FeatureCollection.mk [featA, featB] (some 1) (some 1)).features.length : Int) := by
  constructor <;> decide

/-- C3 (amended): get_data never recomputes count metadata: whenever the
first page parses as p and the loop finishes with a collection, that
collection carries p's numberMatched and numberReturned verbatim (later
pages only extend the features list), so numberReturned need not equal
the number of features actually returned. -/
theorem c3_counters_left_stale (src : Nat → Payload) (mf fuel : Nat)
    (p fc : FeatureCollection)
    (h0 : src 0 = Payload.page p)
    (hrun : (getDataLoop src mf fuel 0 none).outcome = LoopExit.finished (some fc)) :
    fc.numberMatched = p.numberMatched ∧ fc.numberReturned = p.numberReturned := by
  cases fuel with
  | zero => simp [getDataLoop] at hrun
  | succ m =>
    by_cases hs : p.features.length < mf
    · simp only [getDataLoop, h0, if_pos hs] at hrun
      simp [mergePage] at hrun
      subst hrun
      exact ⟨rfl, rfl⟩
    · simp only [getDataLoop, h0, if_neg hs] at hrun
      have := getDataLoop_metadata src mf m (0 + mf) (mergePage none p) fc hrun
      simpa [mergePage] using this

theorem c3_witness :
    (FeatureCollection.mk [Feature.mk [], Feature.mk []] (some 2) (some 1)).numberMatched =
      (FeatureCollection.mk [Feature.mk []] (some 2) (some 1)).numberMatched ∧
    (FeatureCollection.mk [Feature.mk [], Feature.mk []] (some 2) (some 1)).numberReturned =
      (FeatureCollection.mk [Feature.mk []] (some 2) (some 1)).numberReturned :=
  c3_counters_left_stale c2src 1 10 ⟨[⟨[]⟩], some 2, some 1⟩
    ⟨[⟨[]⟩, ⟨[]⟩], some 2, some 1⟩ rfl (by decide)

/-- C4 (counterexample): when the very first payload fails to parse,
get_data returns the Python value None, which is not an empty feature
collection. -/
theorem c4_counterexample :
    get_data c4src 25000 none false 5 = GetDataResult.pyNone ∧
    GetDataResult.pyNone ≠ GetDataResult.ok ⟨[], none, none⟩ := by
  constructor <;> decide

/-- C4 (amended): a first-page parse failure is handled as the non-error
no-results case and surfaced as the return value None (no exception, no
partial data), while a transport failure on the first request propagates
as an exception; the two outcomes are distinct, but the no-results case
yields None rather than an empty collection. -/
theorem c4_first_page_parse_failure (src : Nat → Payload) (mf : Nat)
    (sp : Option String) (sd : Bool) (fuel : Nat) (hfuel : 0 < fuel) :
    (src 0 = Payload.invalid → get_data src mf sp sd fuel = GetDataResult.pyNone) ∧
    (src 0 = Payload.transportFail →
      get_data src mf sp sd fuel = GetDataResult.transportRaise) ∧
    GetDataResult.pyNone ≠ GetDataResult.transportRaise := by
  obtain ⟨m, rfl⟩ : ∃ m, fuel = m + 1 := ⟨fuel - 1, by omega⟩
  refine ⟨?_, ?_, by decide⟩
  · intro h
    simp [get_data, getDataLoop, h]
  · intro h
    simp [get_data, getDataLoop, h]

theorem c4_witness :
    get_data c4src 25000 none false 5 ≠ GetDataResult.ok ⟨[], none, none⟩ ∧
    get_data c4srcT 25000 none false 5 = GetDataResult.transportRaise := by
  constructor
  · rw [(c4_first_page_parse_failure c4src 25000 none false 5 (by decide)).1 rfl]
    decide
  · exact (c4_first_page_parse_failure c4srcT 25000 none false 5 (by decide)).2.1 rfl

/-- C5: the pagination loop cannot run unboundedly over finite data: with
a positive page size mf, every iteration that does not exit advances the
start index by mf, so as soon as some offset n * mf yields anything other
than a full page, the loop halts within n + 1 iterations (fuel n + 1 is
never exhausted). -/
theorem c5_loop_terminates (src : Nat → Payload) (mf : Nat) (hmf : 0 < mf)
    (n : Nat)
    (hstop : ∀ fc, src (n * mf) = Payload.page fc → fc.features.length < mf)
    (fuel : Nat) (hfuel : n + 1 ≤ fuel) :
    (getDataLoop src mf fuel 0 none).outcome ≠ LoopExit.fuelOut := by
  have h := getDataLoop_halts src mf n 0 fuel none
    (by intro fc hfc; exact hstop fc (by simpa using hfc)) hfuel
  simpa using h

theorem c5_witness :
    (getDataLoop c2src 1 10 0 none).outcome ≠ LoopExit.fuelOut := by
  refine c5_loop_terminates c2src 1 (by decide) 2 ?_ 10 (by decide)
  intro fc h
  have h2 : Payload.page (⟨[], some 2, some 0⟩ : FeatureCollection) = Payload.page fc := h
  cases h2
  decide

/-- C6: date2string appends the direction default time-of-day to bare
calendar dates (00:00:00 for begin, 23:59:59 for end), both for
10-character date strings and for date objects, and preserves the
time-of-day of values that already carry one (datetime strings are
returned verbatim, datetime objects are formatted with their own
time-of-day, independent of direction). -/
theorem c6_default_time_of_day :
    (∀ s : String, s.length = 10 →
      date2string (DateVal.str s) "begin" = D2SResult.ret (some (s ++ " 00:00:00")) ∧
      date2string (DateVal.str s) "end" = D2SResult.ret (some (s ++ " 23:59:59"))) ∧
    (∀ y mo d : Nat,
      date2string (DateVal.date y mo d) "begin" =
        D2SResult.ret (some (strftimeDate y mo d ++ " 00:00:00")) ∧
      date2string (DateVal.date y mo d) "end" =
        D2SResult.ret (some (strftimeDate y mo d ++ " 23:59:59"))) ∧
    (∀ s : String, 10 < s.length →
      date2string (DateVal.str s) "begin" = D2SResult.ret (some s) ∧
      date2string (DateVal.str s) "end" = D2SResult.ret (some s)) ∧
    (∀ y mo d h mi sec : Nat, ∀ dir : String, dir = "begin" ∨ dir = "end" →
      date2string (DateVal.datetime y mo d h mi sec) dir =
        D2SResult.ret (some (strftimeDateTime y mo d h mi sec))) := by
  refine ⟨?_, ?_, ?_, ?_⟩
  · intro s hs
    constructor <;> simp [date2string, date2stringBody, hs, String.append_assoc]
  · intro y mo d
    constructor <;> simp [date2string, date2stringBody, String.append_assoc]
  · intro s hs
    have h10 : ¬ s.length = 10 := by omega
    constructor <;> simp [date2string, date2stringBody, h10, hs]
  · intro y mo d h mi sec dir hdir
    rcases hdir with h1 | h1 <;> subst h1 <;> simp [date2string, date2stringBody]

theorem c6_witness :
    date2string (DateVal.str "2000-10-10") "begin" =
      D2SResult.ret (some ("2000-10-10" ++ " 00:00:00")) ∧
    date2string (DateVal.date 2000 11 30) "end" =
      D2SResult.ret (some (strftimeDate 2000 11 30 ++ " 23:59:59")) ∧
    date2string (DateVal.str "2000-10-10 02:22:28") "end" =
      D2SResult.ret (some "2000-10-10 02:22:28") ∧
    date2string (DateVal.datetime 2002 10 30 11 11 11) "begin" =
      D2SResult.ret (some (strftimeDateTime 2002 10 30 11 11 11)) :=
  ⟨(c6_default_time_of_day.1 "2000-10-10" (by decide)).1,
   (c6_default_time_of_day.2.1 2000 11 30).2,
   (c6_default_time_of_day.2.2.1 "2000-10-10 02:22:28" (by decide)).2,
   c6_default_time_of_day.2.2.2 2002 10 30 11 11 11 "begin" (Or.inl rfl)⟩

/-- C7: with a sort specification the final feature list is stably sorted
by the named property: rank values [3,1,2] come back [1,2,3] ascending
and [3,2,1] descending, ties keep their original relative order in both
directions, and whenever some returned feature lacks the named property
the call fails with the KeyError raised by the sort key lookup. -/
theorem c7_sorting :
    get_data c7src 25000 (some "rank") false 5 =
      GetDataResult.ok ⟨[rank1, rank2, rank3], some 3, some 3⟩ ∧
    get_data c7src 25000 (some "rank") true 5 =
      GetDataResult.ok ⟨[rank3, rank2, rank1], some 3, some 3⟩ ∧
    get_data c7tiesrc 25000 (some "rank") false 5 =
      GetDataResult.ok ⟨[tie3, tie1, tie2], none, none⟩ ∧
    get_data c7tiesrc 25000 (some "rank") true 5 =
      GetDataResult.ok ⟨[tie1, tie2, tie3], none, none⟩ ∧
    (∀ (src : Nat → Payload) (mf fuel : Nat) (p : String) (sd : Bool)
        (fc : FeatureCollection) (f : Feature),
      (getDataLoop src mf fuel 0 none).outcome = LoopExit.finished (some fc) →
      f ∈ fc.features → f.properties.lookup p = none →
      get_data src mf (some p) sd fuel = GetDataResult.keyError) := by
  refine ⟨by decide, by decide, by decide, by decide, ?_⟩
  intro src mf fuel p sd fc f hrun hmem hnone
  have hall : fc.features.all (fun g => (g.properties.lookup p).isSome) = false := by
    rw [List.all_eq_false]
    exact ⟨f, hmem, by simp [hnone]⟩
  simp [get_data, hrun, hall]

theorem c7_witness :
    get_data c7badsrc 25000 (some "rank") false 5 = GetDataResult.keyError :=
  c7_sorting.2.2.2.2 c7badsrc 25000 5 "rank" false ⟨[noRank], none, none⟩ noRank
    (by decide) (by decide) (by decide)

/-- C8 (counterexample): date2string applied to a value of unrecognized
type with a valid direction returns the Python value None instead of
raising ValueError. -/
theorem c8_counterexample :
    date2string DateVal.other "begin" = D2SResult.ret none ∧
    date2string DateVal.other "begin" ≠ D2SResult.valueError := by
  constructor <;> decide

/-- C8 (amended): date2string raises ValueError exactly when the
direction is neither begin nor end; with a valid direction, a value of
unrecognized type, and likewise a string shorter than 10 characters,
silently yields the return value None instead of an error. -/
theorem c8_valueerror_only_for_direction (dv : DateVal) (dir : String) :
    (dir ≠ "begin" → dir ≠ "end" → date2string dv dir = D2SResult.valueError) ∧
    (dir = "begin" ∨ dir = "end" →
      date2string DateVal.other dir = D2SResult.ret none ∧
      ∀ s : String, s.length < 10 →
        date2string (DateVal.str s) dir = D2SResult.ret none) := by
  constructor
  · intro h1 h2
    simp [date2string, h1, h2]
  · rintro (h | h) <;> subst h <;>
      refine ⟨by decide, ?_⟩ <;>
      intro s hs <;>
      have h1 : ¬ s.length = 10 := by omega
    · have h2 : ¬ s.length > 10 := by omega
      simp [date2string, date2stringBody, h1, h2]
    · have h2 : ¬ s.length > 10 := by omega
      simp [date2string, date2stringBody, h1, h2]

theorem c8_witness :
    date2string DateVal.other "north" = D2SResult.valueError ∧
    date2string (DateVal.str "2000") "end" = D2SResult.ret none :=
  ⟨(c8_valueerror_only_for_direction DateVal.other "north").1 (by decide) (by decide),
   ((c8_valueerror_only_for_direction (DateVal.str "2000") "end").2 (Or.inr rfl)).2
     "2000" (by decide)⟩

/-- C9: when the very first payload is whitespace-only, the loop breaks
with the accumulator still None, and get_data then fails with the
TypeError raised by len(feature_collection['features']) instead of
returning an empty collection. -/
theorem c9_whitespace_first_page_typeerror (src : Nat → Payload) (mf : Nat)
    (sp : Option String) (sd : Bool) (fuel : Nat) (hfuel : 0 < fuel)
    (h : src 0 = Payload.whitespace) :
    get_data src mf sp sd fuel = GetDataResult.typeError := by
  obtain ⟨m, rfl⟩ : ∃ m, fuel = m + 1 := ⟨fuel - 1, by omega⟩
  simp [get_data, getDataLoop, h]

theorem c9_witness :
    get_data c9src 25000 none false 5 = GetDataResult.typeError :=
  c9_whitespace_first_page_typeerror c9src 25000 none false 5 (by decide) rfl

/-- C10: when a page after the first fails to parse as JSON, get_data
returns the Python value None, silently discarding the features already
accumulated from the earlier pages: neither a partial collection nor an
exception reaches the caller. -/
theorem c10_later_parse_failure_returns_none (src : Nat → Payload) (mf : Nat)
    (sp : Option String) (sd : Bool) (p : FeatureCollection)
    (h0 : src 0 = Payload.page p) (hfull : ¬ p.features.length < mf)
    (h1 : src mf = Payload.invalid)
    (fuel : Nat) (hfuel : 2 ≤ fuel) :
    get_data src mf sp sd fuel = GetDataResult.pyNone := by
  obtain ⟨m, rfl⟩ : ∃ m, fuel = m + 2 := ⟨fuel - 2, by omega⟩
  simp [get_data, getDataLoop, h0, if_neg hfull, h1]

theorem c10_witness :
    get_data c10src 1 none false 5 = GetDataResult.pyNone :=
  c10_later_parse_failure_returns_none c10src 1 none false ⟨[⟨[]⟩], none, none⟩
    rfl (by decide) rfl 5 (by decide)
